import Mathlib

/-!
Verification of the inline layout core of src/servo/layout/inline.rs: the
TextRunScanner (coalescing of adjacent unscanned text boxes with element
span repair) and the LineboxScanner (greedy line packing with a LIFO
deferral work list).

External collaborators (font service, text transform, split_to_width,
can_split, can_merge_with_box) are out of scope per the specification and
are taken as parameters of the embedded functions.  Fallible operations of
the source (fail, assert, out-of-bounds indexing) are embedded as Option
or an explicit failure result.  u16 arithmetic of the source wraps at
65536, which the embedding makes explicit.
-/

namespace Servo

/-- Wrap a natural number to u16, as the source casts with `as u16`. -/
def u16 (n : Nat) : Nat := n % 65536

/-- Wrapping u16 subtraction, as `-=` behaves on u16 in the source dialect
(silent wrap-around on underflow).  The first argument is assumed to be a
stored u16 value, hence below 65536. -/
def u16sub (a b : Nat) : Nat := (a + 65536 - b % 65536) % 65536

/-- The source computes `(overlap - 1) as u16` where overlap is a uint:
underflow at overlap = 0 wraps the uint and the cast keeps 65535. -/
def overlap_minus_one_u16 (ov : Nat) : Nat :=
  if ov = 0 then 65535 else u16 (ov - 1)

/-- BoxRange of the source: a {start, len} index range over a box list,
with u16 fields. -/
structure BoxRange where
  start : Nat
  len : Nat
deriving Repr, DecidableEq

/-- NodeRange of the source: a DOM node (by id) owning a span of boxes. -/
structure NodeRange where
  node : Nat
  span : BoxRange
deriving Repr, DecidableEq

/-- The RenderBox variants the inline code distinguishes. -/
inductive BoxKind where
  | unscannedText (raw : String)
  | text (runText : String)
  | image
  | generic
deriving Repr, DecidableEq

/-- A RenderBox handle: kind plus the mutable box data the inline code
reads and writes (position rectangle in Au units). -/
structure RenderBox where
  id : Int
  kind : BoxKind
  width : Int
  height : Int
  x : Int
  y : Int
deriving Repr, DecidableEq

/-- Whether a box is an UnscannedTextBox. -/
def isUnscannedText (b : RenderBox) : Bool :=
  match b.kind with
  | .unscannedText _ => true
  | _ => false

/-- raw_text of the source: defined for UnscannedTextBox, a failure
otherwise. -/
def raw_text (b : RenderBox) : Option String :=
  match b.kind with
  | .unscannedText s => some s
  | _ => none

/-- boxes_can_be_coalesced of the source: both boxes UnscannedTextBox and
can_merge_with_box (an external predicate, parameter cm) holds. -/
def boxes_can_be_coalesced (cm : RenderBox → RenderBox → Bool)
    (a b : RenderBox) : Bool :=
  match a.kind, b.kind with
  | .unscannedText _, .unscannedText _ => cm a b
  | _, _ => false

/-- ClumpRangeRelation of the source. -/
inductive ClumpRangeRelation where
  | rangeOverlapsClumpStart (overlap : Nat)
  | rangeOverlapsClumpEnd (overlap : Nat)
  | rangeContainedByClump
  | rangeContainsClump
  | rangeCoincidesClump
  | rangeEntirelyBeforeClump
  | rangeEntirelyAfterClump
deriving Repr, DecidableEq

/-- relation_of_clump_and_range of the source.  range_start is the u16
start as uint; range_end is the u16 sum start + len (wrapping) as uint;
the clump bounds are inclusive uints.  The final fail branch is embedded
as none. -/
def relation_of_clump_and_range (range : BoxRange)
    (clump_start clump_end : Nat) : Option ClumpRangeRelation :=
  let range_start := range.start
  let range_end := u16 (range.start + range.len)
  if range_end < clump_start then some .rangeEntirelyBeforeClump
  else if range_start > clump_end then some .rangeEntirelyAfterClump
  else if range_start = clump_start ∧ range_end = clump_end then
    some .rangeCoincidesClump
  else if range_start ≤ clump_start ∧ range_end ≥ clump_end then
    some .rangeContainsClump
  else if range_start ≥ clump_start ∧ range_end ≤ clump_end then
    some .rangeContainedByClump
  else if range_start < clump_start ∧ range_end < clump_end then
    some (.rangeOverlapsClumpStart (range_end - clump_start))
  else if range_start > clump_start ∧ range_end > clump_end then
    some (.rangeOverlapsClumpEnd (clump_end - range_start))
  else none

/-- The per-NodeRange repair step of flush_clump_to_list: classify the
span against the clump and adjust it, with the u16 wrapping updates of
the source.  clump_box_count = clump_end - clump_start + 1. -/
def repair_node_range (clump_start clump_end : Nat) (r : NodeRange) :
    Option NodeRange :=
  let clump_box_count := clump_end - clump_start + 1
  match relation_of_clump_and_range r.span clump_start clump_end with
  | none => none
  | some rel =>
    some { r with span :=
      match rel with
      | .rangeEntirelyBeforeClump => r.span
      | .rangeEntirelyAfterClump =>
        { start := u16sub r.span.start (u16 clump_box_count),
          len := r.span.len }
      | .rangeCoincidesClump | .rangeContainedByClump =>
        { start := u16 clump_start, len := 1 }
      | .rangeContainsClump =>
        { start := r.span.start,
          len := u16sub r.span.len (u16 clump_box_count) }
      | .rangeOverlapsClumpStart ov =>
        { start := r.span.start,
          len := u16sub r.span.len (overlap_minus_one_u16 ov) }
      | .rangeOverlapsClumpEnd ov =>
        { start := u16 clump_start,
          len := u16sub r.span.len (overlap_minus_one_u16 ov) } }

/-- Map an Option-returning function over a list, failing if any element
fails; embeds the fail-fast loops of the source. -/
def optionMapList (f : α → Option β) : List α → Option (List β)
  | [] => some []
  | a :: as =>
    match f a, optionMapList f as with
    | some b, some bs => some (b :: bs)
    | _, _ => none

/-- Modelled from the spec: layout::text::adapt_textbox_with_range is
repository code that is not under src.  Per the spec, a flush emits one
Text box covering the full shaped run, carrying the source box data. -/
def adapt_textbox_with_range (d : RenderBox) (runText : String) :
    RenderBox :=
  { d with kind := .text runText }

/-- flush_clump_to_list of the source.  tt is the external transform_text
under the CompressWhitespaceNewline policy.  Returns the extended output
box list and the repaired element ranges; none embeds the fail paths
(out-of-range index, the WAT non-text coalesce branch, raw_text on a
non-text box). -/
def flush_clump_to_list (tt : String → String) (in_boxes : List RenderBox)
    (clump_start clump_end : Nat) (out_boxes : List RenderBox)
    (elems : List NodeRange) :
    Option (List RenderBox × List NodeRange) :=
  match in_boxes[clump_start]? with
  | none => none
  | some first =>
    match clump_start == clump_end, isUnscannedText first with
    | false, false => none
    | true, false => some (out_boxes ++ [first], elems)
    | true, true =>
      match raw_text first with
      | none => none
      | some text =>
        some (out_boxes ++ [adapt_textbox_with_range first (tt text)],
          elems)
    | false, true =>
      let clump_box_count := clump_end - clump_start + 1
      match optionMapList
          (fun i => ((in_boxes[i + clump_start]?).bind raw_text).map tt)
          (List.range clump_box_count) with
      | none => none
      | some transformed_strs =>
        match optionMapList (repair_node_range clump_start clump_end)
            elems with
        | none => none
        | some elems2 =>
          let run_str := transformed_strs.foldl (fun a s => a ++ s) ""
          some (out_boxes ++ [adapt_textbox_with_range first run_str],
            elems2)

/-- The mutable clump state of TextRunScanner. -/
structure ScanState where
  in_clump : Bool
  clump_start : Nat
  clump_end : Nat
deriving Repr, DecidableEq

/-- can_coalesce_with_prev of the scan loop:
i > 0 && boxes_can_be_coalesced(prev_box, in_boxes[i]), where prev_box is
in_boxes[i-1]. -/
def can_coalesce_with_prev (cm : RenderBox → RenderBox → Bool)
    (in_boxes : List RenderBox) (i : Nat) (cur : RenderBox) : Bool :=
  match i, in_boxes[i-1]? with
  | 0, _ => false
  | _+1, some prev => boxes_can_be_coalesced cm prev cur
  | _+1, none => false

/-- The scan loop of scan_for_runs over indices i in [0, n), counting
down the number k of indices left (the caller passes k = n, i = 0), with
the final flush of a pending clump when the range is exhausted. -/
def scanAux (cm : RenderBox → RenderBox → Bool) (tt : String → String)
    (in_boxes : List RenderBox) :
    Nat → Nat → ScanState → List RenderBox → List NodeRange →
    Option (List RenderBox × List NodeRange)
  | 0, _, st, out, elems =>
    if st.in_clump then
      flush_clump_to_list tt in_boxes st.clump_start st.clump_end out
        elems
    else some (out, elems)
  | k+1, i, st, out, elems =>
    match in_boxes[i]? with
    | none => none
    | some cur =>
      match st.in_clump, can_coalesce_with_prev cm in_boxes i cur with
      | false, _ =>
        scanAux cm tt in_boxes k (i+1) ⟨true, i, i⟩ out elems
      | true, true =>
        scanAux cm tt in_boxes k (i+1) ⟨true, st.clump_start, i⟩ out
          elems
      | true, false =>
        match flush_clump_to_list tt in_boxes st.clump_start
            st.clump_end out elems with
        | none => none
        | some (out2, elems2) =>
          scanAux cm tt in_boxes k (i+1) ⟨true, i, i⟩ out2 elems2

/-- scan_for_runs of the source.  in_clump0 is the scanner state on
entry; the source asserts !self.in_clump and boxes.len() > 0, embedded
as none.  On success, the new box list is swapped into the flow and the
element ranges have been repaired in place. -/
def scan_for_runs (cm : RenderBox → RenderBox → Bool)
    (tt : String → String) (in_clump0 : Bool)
    (in_boxes : List RenderBox) (elems : List NodeRange) :
    Option (List RenderBox × List NodeRange) :=
  if in_clump0 then none
  else if in_boxes.length = 0 then none
  else scanAux cm tt in_boxes in_boxes.length 0 ⟨false, 0, 0⟩ [] elems

/-- bubble_widths_inline of the source: run the TextRunScanner, then take
the max of the per-box intrinsic widths (minW, prefW external). -/
def bubble_widths_inline (cm : RenderBox → RenderBox → Bool)
    (tt : String → String) (minW prefW : RenderBox → Int)
    (in_clump0 : Bool) (in_boxes : List RenderBox)
    (elems : List NodeRange) :
    Option (List RenderBox × List NodeRange × Int × Int) :=
  match scan_for_runs cm tt in_clump0 in_boxes elems with
  | none => none
  | some (bs, el) =>
    let mw := bs.foldl (fun acc b => max acc (minW b)) 0
    let pw := bs.foldl (fun acc b => max acc (prefW b)) 0
    some (bs, el, mw, pw)

/-- SplitBoxResult of the source (returned by the external
split_to_width). -/
inductive SplitBoxResult where
  | cannotSplit (b : RenderBox)
  | splitUnnecessary (b : RenderBox)
  | splitDidFit (l r : RenderBox)
  | splitDidNotFit (l r : RenderBox)
deriving Repr, DecidableEq

/-- The pending line of LineboxScanner: a span into new_boxes being
built, and the accumulated width. -/
structure PendingLine where
  span : BoxRange
  width : Int
deriving Repr, DecidableEq

/-- The LineboxScanner state: the flow box list (whose origins
flush_current_line mutates), the accumulated output boxes, the LIFO work
list (head is the top), the pending line, and the emitted line spans. -/
structure LineScanState where
  flow_boxes : List RenderBox
  new_boxes : List RenderBox
  work_list : List RenderBox
  pending_line : PendingLine
  line_spans : List BoxRange
deriving Repr, DecidableEq

/-- push_box_to_line of the source: on an empty pending line, assert
new_boxes.len() fits u16 and set the span start to new_boxes.len(); then
grow the span by one, add the box width, and append the box. -/
def push_box_to_line (st : LineScanState) (box : RenderBox) :
    Option LineScanState :=
  let started : Option LineScanState :=
    if st.pending_line.span.len = 0 then
      if st.new_boxes.length ≤ 65535 then
        some { st with pending_line :=
          { st.pending_line with span :=
            { start := u16 st.new_boxes.length,
              len := st.pending_line.span.len } } }
      else none
    else some st
  match started with
  | none => none
  | some s =>
    some { s with
      pending_line :=
        { span := { start := s.pending_line.span.start,
                    len := u16 (s.pending_line.span.len + 1) },
          width := s.pending_line.width + box.width },
      new_boxes := s.new_boxes ++ [box] }

/-- try_append_to_line of the source.  W is the flow width; canSplit and
split are the external can_split and split_to_width.  Returns whether the
box was appended, plus the new scanner state; none embeds the
push_box_to_line assertion failure. -/
def try_append_to_line (W : Int) (canSplit : RenderBox → Bool)
    (split : RenderBox → Int → Bool → SplitBoxResult)
    (st : LineScanState) (in_box : RenderBox) :
    Option (Bool × LineScanState) :=
  let remaining_width := W - st.pending_line.width
  let in_box_width := in_box.width
  let line_is_empty := st.pending_line.span.len = 0
  if in_box_width ≤ remaining_width then
    (push_box_to_line st in_box).map (fun s => (true, s))
  else if ¬ canSplit in_box then
    if line_is_empty then
      (push_box_to_line st in_box).map (fun s => (true, s))
    else some (false, st)
  else
    match split in_box remaining_width line_is_empty with
    | .cannotSplit _ => some (false, st)
    | .splitUnnecessary _ =>
      (push_box_to_line st in_box).map (fun s => (true, s))
    | .splitDidFit l r =>
      (push_box_to_line st l).map
        (fun s => (true, { s with work_list := r :: s.work_list }))
    | .splitDidNotFit l r =>
      if line_is_empty then
        (push_box_to_line st l).map
          (fun s => (true, { s with work_list := r :: s.work_list }))
      else some (false, { st with work_list := in_box :: st.work_list })

/-- The offset-setting walk of flush_current_line: for count indices
starting at i, set origin.x of the box at that index of the flow box
list to the running accumulator and add its width.  none embeds an
out-of-bounds index. -/
def set_offsets (boxes : List RenderBox) (i : Nat) (count : Nat)
    (offset_x : Int) : Option (List RenderBox) :=
  match count with
  | 0 => some boxes
  | c+1 =>
    match boxes[i]? with
    | none => none
    | some b =>
      set_offsets (boxes.set i { b with x := offset_x }) (i+1) c
        (offset_x + b.width)

/-- flush_current_line of the source: walk the pending span over the
FLOW box list (as the source does) setting x offsets, append a copy of
the span to line_spans, and reset the pending line.  The walk bound is
the wrapping u16 sum start + len, as uint::range receives it. -/
def flush_current_line (st : LineScanState) : Option LineScanState :=
  let line_span := st.pending_line.span
  let endIdx := u16 (line_span.start + line_span.len)
  match set_offsets st.flow_boxes line_span.start
      (endIdx - line_span.start) 0 with
  | none => none
  | some fb =>
    some { st with
      flow_boxes := fb,
      line_spans := st.line_spans ++ [line_span],
      pending_line := { span := { start := 0, len := 0 }, width := 0 } }

/-- Result of running the line scan loop: normal termination with the
committed (boxes, lines), a source failure (fail / out-of-bounds index),
or fuel exhaustion of the embedding. -/
inductive RunResult (α : Type) where
  | ok (a : α)
  | fail
  | timeout
deriving Repr, DecidableEq

/-- The commit at the end of scan_for_lines: flush a non-empty pending
line, then swap new_boxes into the flow boxes and line_spans into the
flow lines. -/
def scan_lines_finish (st : LineScanState) :
    RunResult (List RenderBox × List BoxRange) :=
  if 0 < st.pending_line.span.len then
    match flush_current_line st with
    | none => .fail
    | some st2 => .ok (st2.new_boxes, st2.line_spans)
  else .ok (st.new_boxes, st.line_spans)

/-- One decision of the scan loop on an acquired box: try_append, and on
not-appended flush the current line; then continue. -/
def scan_lines_step (W : Int) (canSplit : RenderBox → Bool)
    (split : RenderBox → Int → Bool → SplitBoxResult)
    (go : Nat → LineScanState → RunResult (List RenderBox × List BoxRange))
    (i : Nat) (st : LineScanState) (cur : RenderBox) :
    RunResult (List RenderBox × List BoxRange) :=
  match try_append_to_line W canSplit split st cur with
  | none => .fail
  | some (true, st2) => go i st2
  | some (false, st2) =>
    match flush_current_line st2 with
    | none => .fail
    | some st3 => go i st3

/-- The main loop of scan_for_lines.  The next box comes from the work
list first; otherwise the loop breaks only when boxes.len() == 0 (the
break arm of the source matches the list length, not the remaining
count), else it indexes boxes[i] (embedded as fail when past the
end). -/
def scan_for_lines_loop (W : Int) (canSplit : RenderBox → Bool)
    (split : RenderBox → Int → Bool → SplitBoxResult) :
    Nat → Nat → LineScanState →
    RunResult (List RenderBox × List BoxRange)
  | 0, _, _ => .timeout
  | fuel+1, i, st =>
    match st.work_list with
    | box :: rest =>
      scan_lines_step W canSplit split
        (scan_for_lines_loop W canSplit split fuel) i
        { st with work_list := rest } box
    | [] =>
      match st.flow_boxes.length with
      | 0 => scan_lines_finish st
      | _+1 =>
        match st.flow_boxes[i]? with
        | none => .fail
        | some box =>
          scan_lines_step W canSplit split
            (scan_for_lines_loop W canSplit split fuel) (i+1) st box

/-- scan_for_lines of the source, started from a reset scanner on the
given flow box list. -/
def scan_for_lines (W : Int) (canSplit : RenderBox → Bool)
    (split : RenderBox → Int → Bool → SplitBoxResult)
    (flow_boxes : List RenderBox) (fuel : Nat) :
    RunResult (List RenderBox × List BoxRange) :=
  scan_for_lines_loop W canSplit split fuel 0
    { flow_boxes := flow_boxes, new_boxes := [], work_list := [],
      pending_line := { span := { start := 0, len := 0 }, width := 0 },
      line_spans := [] }

/-! ### Helper lemmas about the relation classifier -/

/-- The fail branch of relation_of_clump_and_range is never taken: the
seven guards cover all inputs. -/
theorem relation_isSome (range : BoxRange) (cs ce : Nat) :
    (relation_of_clump_and_range range cs ce).isSome = true := by
  unfold relation_of_clump_and_range u16
  dsimp only
  split_ifs <;> first | rfl | omega

/-- repair_node_range always succeeds, because the classifier is
total. -/
theorem repair_node_range_isSome (cs ce : Nat) (r : NodeRange) :
    (repair_node_range cs ce r).isSome = true := by
  have h := relation_isSome r.span cs ce
  unfold repair_node_range
  cases hrel : relation_of_clump_and_range r.span cs ce with
  | none => rw [hrel] at h; exact absurd h (by simp)
  | some rel => simp

/-! ### Concrete instances of the external parameters, used in the
scenario theorems below. -/

/-- A render box with the given id, kind and width, at the origin. -/
def mkBox (id : Int) (k : BoxKind) (w : Int) : RenderBox :=
  { id := id, kind := k, width := w, height := 0, x := 0, y := 0 }

/-- can_merge_with_box instance: the conservative approximation of the
spec (same kind implies mergeable). -/
def cmTrue : RenderBox → RenderBox → Bool := fun _ _ => true

/-- transform_text instance: identity whitespace transform. -/
def ttId : String → String := fun s => s

/-- can_split instance for flows of non-splittable boxes. -/
def canSplitNone : RenderBox → Bool := fun _ => false

/-- split_to_width instance that never finds a break point. -/
def splitNever : RenderBox → Int → Bool → SplitBoxResult :=
  fun b _ _ => .cannotSplit b

/-- The scanner state of the C3 scenario: container width 100, a line
already holding one box of width 60, work list empty. -/
def lineStateC3 : LineScanState :=
  { flow_boxes := [mkBox 0 .generic 60, mkBox 1 .generic 50],
    new_boxes := [mkBox 0 .generic 60],
    work_list := [],
    pending_line := { span := { start := 0, len := 1 }, width := 60 },
    line_spans := [] }

/-- The 180-wide splittable text box of the C4 scenario. -/
def wideTextBox : RenderBox := mkBox 0 (.text ("wide")) 180

/-- The left fragment returned by split_to_width(100, true) in C4. -/
def leftFragment : RenderBox := mkBox 10 (.text ("left")) 90

/-- The right fragment returned by split_to_width(100, true) in C4. -/
def rightFragment : RenderBox := mkBox 11 (.text ("right")) 90

/-- split_to_width instance of the C4 scenario: at available width 100 on
an empty line it returns SplitDidFit(left=90, right=90); elsewhere no
break opportunity. -/
def splitC4 : RenderBox → Int → Bool → SplitBoxResult :=
  fun b w e =>
    if w == 100 && e then .splitDidFit leftFragment rightFragment
    else .cannotSplit b

/-! ### Claim theorems -/

/-- C1: the claim says scan_for_lines terminates normally exactly when
the work list is empty and every box of the flow has been consumed, and
never reads past the end of the box list.  The code instead breaks only
when boxes.len() == 0: on a flow with one already-appended box and an
empty work list it indexes boxes[1], past the end, and fails without
committing.  This theorem evaluates the code at that failing input. -/
theorem scan_for_lines_reads_past_end :
    scan_for_lines 100 canSplitNone splitNever [mkBox 0 .generic 10] 10
      = .fail := by decide

/-- C2: for input boxes [UnscannedText foo, UnscannedText bar] with one
element span (start 0, len 2), the claim expects one Text box and span
(start 0, len 1) via the Coincides rule.  The code compares the
half-open range end (2) with the inclusive clump end (1), classifies
ContainsClump, and subtracts the full clump count 2 from len, producing
span (start 0, len 0).  This theorem evaluates the code at that
input. -/
theorem scan_for_runs_full_cover_span_becomes_empty :
    scan_for_runs cmTrue ttId false
      [mkBox 0 (.unscannedText ("foo")) 0, mkBox 1 (.unscannedText ("bar")) 0]
      [{ node := 0, span := { start := 0, len := 2 } }]
      = some ([mkBox 0 (.text ("foobar")) 0],
        [{ node := 0, span := { start := 0, len := 0 } }]) := by decide

/-- C3: the claim says a box that cannot split and does not fit on a
non-empty line is retried after the flush, and no input box is ever
silently dropped.  The code returns not-appended without recording the
box anywhere: this theorem evaluates try_append_to_line on a non-empty
line (width 60 of 100 used) with an unsplittable box of width 50, and
the resulting state is exactly the input state - the box is in neither
the work list nor the output, i.e. it is dropped. -/
theorem try_append_to_line_drops_unsplittable_box :
    try_append_to_line 100 canSplitNone splitNever lineStateC3
      (mkBox 1 .generic 50) = some (false, lineStateC3) := by decide

/-- C4: the claim expects lines (0,1) and (1,1) with x-offsets 0 and 0
for one 180-wide splittable box under container width 100 whose split
yields SplitDidFit(90, 90).  The code never reaches the commit: after
the left fragment is placed and the deferred right fragment is laid out,
the loop (whose break arm tests boxes.len() == 0) indexes boxes[1] past
the end of the one-box flow and fails.  This theorem evaluates the code
at that input. -/
theorem scan_for_lines_split_scenario_fails :
    scan_for_lines 100 (fun _ => true) splitC4 [wideTextBox] 10
      = .fail := by decide

/-- C5: for boxes [A, A, B] with A coalescible text and B non-text, and
one element span (start 2, len 1) on B, the claim expects boxes
[Text, B] and span (start 1, len 1).  The code classifies EntirelyAfter
and subtracts the full clump count 2 (not the net shrinkage 1) from the
start, producing span (start 0, len 1), which points at the coalesced
Text box instead of B.  This theorem evaluates the code at that
input. -/
theorem scan_for_runs_entirely_after_overshifts :
    scan_for_runs cmTrue ttId false
      [mkBox 0 (.unscannedText ("a")) 0, mkBox 1 (.unscannedText ("b")) 0,
        mkBox 2 .generic 0]
      [{ node := 7, span := { start := 2, len := 1 } }]
      = some ([mkBox 0 (.text ("ab")) 0, mkBox 2 .generic 0],
        [{ node := 7, span := { start := 0, len := 1 } }]) := by decide

/-- C6: the claim expects lines (0,1) and (1,2) with x-offsets 0, 0, 50
for three non-splittable boxes of widths 60, 50, 20 under container
width 100.  The code drops the width-50 box when it does not fit the
non-empty first line (it is neither deferred nor retried), and the loop
then indexes boxes[3] past the end instead of terminating, so no lines
are ever committed.  This theorem evaluates the code at that input. -/
theorem scan_for_lines_three_boxes_fails :
    scan_for_lines 100 canSplitNone splitNever
      [mkBox 0 .generic 60, mkBox 1 .generic 50, mkBox 2 .generic 20] 10
      = .fail := by decide

/-- C10: scan_for_runs asserts that the scanner is freshly reset
(in_clump is false) and that the flow box list is non-empty; on a flow
with zero boxes it fails the assertion (none) rather than returning an
empty result, and bubble_widths_inline inherits the failure. -/
theorem scan_for_runs_requires_nonempty_and_reset
    (cm : RenderBox → RenderBox → Bool) (tt : String → String)
    (elems : List NodeRange) (bs : List RenderBox)
    (minW prefW : RenderBox → Int) :
    scan_for_runs cm tt false [] elems = none ∧
    scan_for_runs cm tt true bs elems = none ∧
    bubble_widths_inline cm tt minW prefW false [] elems = none := by
  refine ⟨rfl, rfl, rfl⟩

/-- Witness for C10 at concrete instances of the external parameters. -/
theorem scan_for_runs_requires_nonempty_and_reset_witness :
    scan_for_runs cmTrue ttId false [] [] = none ∧
    scan_for_runs cmTrue ttId true [mkBox 0 .generic 0] [] = none ∧
    bubble_widths_inline cmTrue ttId (fun _ => 0) (fun _ => 0) false []
      [] = none :=
  scan_for_runs_requires_nonempty_and_reset cmTrue ttId []
    [mkBox 0 .generic 0] (fun _ => 0) (fun _ => 0)

/-- C7: for every element range whose start + len fits u16 and every
clump with clump_start ≤ clump_end, relation_of_clump_and_range returns
exactly one of the seven relation cases (its failure branch is
unreachable), and the checks are ordered so that Coincides is decided
before Contains and ContainedBy, which are decided before the overlap
cases: when the Coincides condition holds the result is Coincides even
though the Contains and ContainedBy conditions hold as well, and when a
containment condition holds without coincidence the result is the
containment case, never an overlap case. -/
theorem relation_total_and_check_order (range : BoxRange) (cs ce : Nat)
    (hb : range.start + range.len < 65536) (hc : cs ≤ ce) :
    (∃ r, relation_of_clump_and_range range cs ce = some r) ∧
    (range.start = cs ∧ range.start + range.len = ce →
      relation_of_clump_and_range range cs ce
        = some .rangeCoincidesClump) ∧
    (range.start ≤ cs ∧ ce ≤ range.start + range.len ∧
        ¬(range.start = cs ∧ range.start + range.len = ce) →
      relation_of_clump_and_range range cs ce
        = some .rangeContainsClump) ∧
    (cs ≤ range.start ∧ range.start + range.len ≤ ce ∧
        ¬(range.start = cs ∧ range.start + range.len = ce) →
      relation_of_clump_and_range range cs ce
        = some .rangeContainedByClump) := by
  have he : u16 (range.start + range.len) = range.start + range.len :=
    Nat.mod_eq_of_lt hb
  unfold relation_of_clump_and_range
  rw [he]
  dsimp only
  refine ⟨?_, ?_, ?_, ?_⟩
  · split_ifs <;> first | exact ⟨_, rfl⟩ | omega
  · rintro ⟨h1, h2⟩
    split_ifs <;> first | rfl | omega
  · rintro ⟨h1, h2, h3⟩
    split_ifs <;> first | rfl | omega
  · rintro ⟨h1, h2, h3⟩
    split_ifs <;> first | rfl | omega

/-- Witness for C7 at the concrete range (start 0, len 1) and clump
[0, 0]. -/
theorem relation_total_and_check_order_witness :
    ∃ r, relation_of_clump_and_range { start := 0, len := 1 } 0 0
      = some r :=
  (relation_total_and_check_order { start := 0, len := 1 } 0 0
    (by decide) (by decide)).1

/-! ### Totality of the scan (C8) -/

/-- Coalescibility implies both boxes are UnscannedText. -/
theorem coalesced_isUnscannedText {cm : RenderBox → RenderBox → Bool}
    {a b : RenderBox} (h : boxes_can_be_coalesced cm a b = true) :
    isUnscannedText a = true ∧ isUnscannedText b = true := by
  unfold boxes_can_be_coalesced at h
  unfold isUnscannedText
  cases ha : a.kind <;> cases hb : b.kind <;> simp_all

/-- raw_text succeeds on an UnscannedText box. -/
theorem raw_text_isSome {b : RenderBox}
    (h : isUnscannedText b = true) : ∃ s, raw_text b = some s := by
  unfold isUnscannedText at h
  unfold raw_text
  cases hk : b.kind <;> simp_all

/-- optionMapList succeeds when every element does. -/
theorem optionMapList_isSome {α β : Type} (f : α → Option β) :
    ∀ l : List α, (∀ a ∈ l, (f a).isSome = true) →
      (optionMapList f l).isSome = true := by
  intro l
  induction l with
  | nil => intro _; rfl
  | cons a as ih =>
    intro h
    have h1 := h a (by simp)
    have h2 := ih (fun x hx => h x (by simp [hx]))
    unfold optionMapList
    cases hfa : f a with
    | none => rw [hfa] at h1; exact absurd h1 (by simp)
    | some b =>
      cases hrest : optionMapList f as with
      | none => rw [hrest] at h2; exact absurd h2 (by simp)
      | some bs => simp

/-- flush_clump_to_list succeeds on a clump that is in bounds and, when
it has more than one box, consists of UnscannedText boxes only. -/
theorem flush_clump_to_list_isSome (tt : String → String)
    (in_boxes : List RenderBox) (cs ce : Nat)
    (out : List RenderBox) (elems : List NodeRange)
    (hce : ce < in_boxes.length) (hle : cs ≤ ce)
    (htext : cs < ce → ∀ j, cs ≤ j → j ≤ ce →
      ∃ b, in_boxes[j]? = some b ∧ isUnscannedText b = true) :
    (flush_clump_to_list tt in_boxes cs ce out elems).isSome = true := by
  have hcs : cs < in_boxes.length := Nat.lt_of_le_of_lt hle hce
  have hget : in_boxes[cs]? = some in_boxes[cs] :=
    List.getElem?_eq_getElem hcs
  unfold flush_clump_to_list
  rw [hget]
  by_cases hco : cs = ce
  · subst hco
    simp only [beq_self_eq_true]
    cases hU : isUnscannedText in_boxes[cs] with
    | false => simp
    | true =>
      obtain ⟨s, hs⟩ := raw_text_isSome hU
      rw [hs]
      simp
  · have hlt : cs < ce := Nat.lt_of_le_of_ne hle hco
    have hbeq : (cs == ce) = false := by simp [hco]
    obtain ⟨b0, hb0, hU0⟩ := htext hlt cs (Nat.le_refl cs) hle
    have hb0' : b0 = in_boxes[cs] := by
      rw [hget] at hb0; exact (Option.some.inj hb0).symm
    have hU0' : isUnscannedText in_boxes[cs] = true := hb0' ▸ hU0
    simp only [hget, hbeq, hU0']
    have hstrs : (optionMapList
        (fun i => ((in_boxes[i + cs]?).bind raw_text).map tt)
        (List.range (ce - cs + 1))).isSome = true := by
      apply optionMapList_isSome
      intro i hi
      have hi' : i < ce - cs + 1 := List.mem_range.mp hi
      obtain ⟨b, hb, hU⟩ := htext hlt (i + cs) (by omega) (by omega)
      obtain ⟨s, hs⟩ := raw_text_isSome hU
      rw [hb]
      simp [hs]
    have helems : (optionMapList (repair_node_range cs ce)
        elems).isSome = true :=
      optionMapList_isSome _ _ (fun r _ => repair_node_range_isSome cs ce r)
    obtain ⟨strs, hstrs'⟩ := Option.isSome_iff_exists.mp hstrs
    obtain ⟨els, hels'⟩ := Option.isSome_iff_exists.mp helems
    rw [hstrs', hels']
    simp

/-- Unfolding of a true can_coalesce_with_prev check. -/
theorem can_coalesce_with_prev_spec {cm : RenderBox → RenderBox → Bool}
    {in_boxes : List RenderBox} {i : Nat} {cur : RenderBox}
    (h : can_coalesce_with_prev cm in_boxes i cur = true) :
    ∃ prev, 1 ≤ i ∧ in_boxes[i-1]? = some prev ∧
      isUnscannedText prev = true ∧ isUnscannedText cur = true := by
  unfold can_coalesce_with_prev at h
  cases i with
  | zero => exact absurd h (by simp)
  | succ m =>
    cases hp : in_boxes[m]? with
    | none =>
      rw [show (m + 1 - 1) = m from rfl, hp] at h
      exact absurd h (by simp)
    | some prev =>
      rw [show (m + 1 - 1) = m from rfl, hp] at h
      obtain ⟨hu1, hu2⟩ := coalesced_isUnscannedText h
      exact ⟨prev, Nat.succ_le_succ (Nat.zero_le m), hp, hu1, hu2⟩

/-- The clump invariant of the scan loop at index i: a pending clump
ends exactly at i - 1, is in bounds, and when it has more than one box
all its boxes are UnscannedText. -/
def clumpInv (in_boxes : List RenderBox) (i : Nat) (st : ScanState) :
    Prop :=
  st.in_clump = true →
    st.clump_start ≤ st.clump_end ∧ st.clump_end + 1 = i ∧
    (st.clump_start < st.clump_end →
      ∀ j, st.clump_start ≤ j → j ≤ st.clump_end →
        ∃ b, in_boxes[j]? = some b ∧ isUnscannedText b = true)

/-- The scan loop never fails from a state satisfying the clump
invariant. -/
theorem scanAux_isSome (cm : RenderBox → RenderBox → Bool)
    (tt : String → String) (in_boxes : List RenderBox) :
    ∀ (k i : Nat) (st : ScanState) (out : List RenderBox)
      (elems : List NodeRange),
      i + k = in_boxes.length → clumpInv in_boxes i st →
      (scanAux cm tt in_boxes k i st out elems).isSome = true := by
  have hfresh : ∀ i, clumpInv in_boxes (i+1) ⟨true, i, i⟩ := by
    intro i _
    exact ⟨Nat.le_refl i, rfl, fun hlt => absurd hlt (Nat.lt_irrefl i)⟩
  intro k
  induction k with
  | zero =>
    intro i st out elems hik hinv
    unfold scanAux
    cases hic : st.in_clump with
    | false => simp
    | true =>
      obtain ⟨h1, h2, h3⟩ := hinv hic
      rw [if_pos rfl]
      exact flush_clump_to_list_isSome tt in_boxes _ _ out elems
        (by omega) h1 h3
  | succ k ih =>
    intro i st out elems hik hinv
    have hi : i < in_boxes.length := by omega
    have hget : in_boxes[i]? = some in_boxes[i] :=
      List.getElem?_eq_getElem hi
    unfold scanAux
    simp only [hget]
    cases hic : st.in_clump with
    | false =>
      show (scanAux cm tt in_boxes k (i+1) ⟨true, i, i⟩ out elems).isSome
        = true
      exact ih (i+1) ⟨true, i, i⟩ out elems (by omega) (hfresh i)
    | true =>
      obtain ⟨h1, h2, h3⟩ := hinv hic
      cases hcc : can_coalesce_with_prev cm in_boxes i in_boxes[i] with
      | true =>
        show (scanAux cm tt in_boxes k (i+1) ⟨true, st.clump_start, i⟩
          out elems).isSome = true
        obtain ⟨prev, hi1, hprev, hUp, hUc⟩ :=
          can_coalesce_with_prev_spec hcc
        apply ih (i+1) ⟨true, st.clump_start, i⟩ out elems (by omega)
        intro _
        refine ⟨show st.clump_start ≤ i by omega, rfl, ?_⟩
        intro hlt j hj1 hj2
        have hj1' : st.clump_start ≤ j := hj1
        have hj2' : j ≤ i := hj2
        by_cases hj : j = i
        · subst hj
          exact ⟨in_boxes[j], List.getElem?_eq_getElem (by omega), hUc⟩
        · have hj' : j ≤ st.clump_end := by omega
          by_cases hcse : st.clump_start < st.clump_end
          · exact h3 hcse j hj1' hj'
          · have hje : j = i - 1 := by omega
            rw [hje]
            exact ⟨prev, hprev, hUp⟩
      | false =>
        have hfl := flush_clump_to_list_isSome tt in_boxes st.clump_start
          st.clump_end out elems (by omega) h1 h3
        obtain ⟨p, hp⟩ := Option.isSome_iff_exists.mp hfl
        obtain ⟨out2, elems2⟩ := p
        rw [hp]
        show (scanAux cm tt in_boxes k (i+1) ⟨true, i, i⟩ out2
          elems2).isSome = true
        exact ih (i+1) ⟨true, i, i⟩ out2 elems2 (by omega) (hfresh i)

/-- C8: for every non-empty input box sequence fed to a freshly reset
TextRunScanner, scan_for_runs succeeds: every flushed clump of more than
one box consists of UnscannedText boxes only by construction, so the
fatal non-text coalesce branch of flush_clump_to_list is unreachable,
and every other flush path is total. -/
theorem scan_for_runs_total (cm : RenderBox → RenderBox → Bool)
    (tt : String → String) (in_boxes : List RenderBox)
    (elems : List NodeRange) (h : in_boxes ≠ []) :
    (scan_for_runs cm tt false in_boxes elems).isSome = true := by
  have hlen : in_boxes.length ≠ 0 :=
    fun hl => h (List.length_eq_zero.mp hl)
  unfold scan_for_runs
  rw [if_neg (by simp), if_neg hlen]
  apply scanAux_isSome cm tt in_boxes in_boxes.length 0 ⟨false, 0, 0⟩ []
    elems (by omega)
  intro hcl
  exact absurd hcl (by simp)

/-- Witness for C8 on a concrete two-box text flow. -/
theorem scan_for_runs_total_witness :
    (scan_for_runs cmTrue ttId false
      [mkBox 0 (.unscannedText ("x")) 0, mkBox 1 (.unscannedText ("y")) 0]
      []).isSome = true :=
  scan_for_runs_total cmTrue ttId
    [mkBox 0 (.unscannedText ("x")) 0, mkBox 1 (.unscannedText ("y")) 0]
    [] (by simp)

/-! ### The scan is a fixpoint on already-scanned flows (C9) -/

/-- The synthesized Text box of a flush is never UnscannedText. -/
theorem isUnscannedText_adapt (d : RenderBox) (s : String) :
    isUnscannedText (adapt_textbox_with_range d s) = false := rfl

/-- No box of the list is UnscannedText. -/
def noUnscanned (l : List RenderBox) : Prop :=
  ∀ b ∈ l, isUnscannedText b = false

/-- Every successful flush appends exactly one box to the output, and
that box is never UnscannedText. -/
theorem flush_clump_to_list_shape {tt : String → String}
    {in_boxes : List RenderBox} {cs ce : Nat} {out : List RenderBox}
    {elems : List NodeRange} {res : List RenderBox × List NodeRange}
    (h : flush_clump_to_list tt in_boxes cs ce out elems = some res) :
    ∃ b, res.1 = out ++ [b] ∧ isUnscannedText b = false := by
  unfold flush_clump_to_list at h
  cases hget : in_boxes[cs]? with
  | none => rw [hget] at h; exact absurd h (by simp)
  | some first =>
    rw [hget] at h
    cases hbeq : (cs == ce) <;> cases hU : isUnscannedText first <;>
      simp only [hbeq, hU] at h
    · exact absurd h (by simp)
    · cases hs : optionMapList
          (fun i => ((in_boxes[i + cs]?).bind raw_text).map tt)
          (List.range (ce - cs + 1)) with
      | none => rw [hs] at h; exact absurd h (by simp)
      | some strs =>
        rw [hs] at h
        cases he : optionMapList (repair_node_range cs ce) elems with
        | none => rw [he] at h; exact absurd h (by simp)
        | some els =>
          rw [he] at h
          have := Option.some.inj h
          exact ⟨_, by rw [← this], isUnscannedText_adapt _ _⟩
    · have := Option.some.inj h
      exact ⟨first, by rw [← this], hU⟩
    · cases hr : raw_text first with
      | none => rw [hr] at h; exact absurd h (by simp)
      | some s =>
        rw [hr] at h
        have := Option.some.inj h
        exact ⟨_, by rw [← this], isUnscannedText_adapt _ _⟩

/-- A successful scan keeps the output free of UnscannedText boxes, and
the output is non-empty as soon as a clump is pending, the accumulator
is non-empty, or at least one index remains. -/
theorem scanAux_noUnscanned (cm : RenderBox → RenderBox → Bool)
    (tt : String → String) (in_boxes : List RenderBox) :
    ∀ (k i : Nat) (st : ScanState) (out : List RenderBox)
      (elems : List NodeRange) (res : List RenderBox × List NodeRange),
      scanAux cm tt in_boxes k i st out elems = some res →
      noUnscanned out →
      noUnscanned res.1 ∧
        ((st.in_clump = true ∨ out ≠ [] ∨ 1 ≤ k) → res.1 ≠ []) := by
  intro k
  induction k with
  | zero =>
    intro i st out elems res h hout
    unfold scanAux at h
    cases hic : st.in_clump
    · rw [hic] at h
      simp only [Bool.false_eq_true, if_false] at h
      have := Option.some.inj h
      constructor
      · rw [← this]; exact hout
      · rintro (hd | hd | hd)
        · exact absurd hd (by simp)
        · rw [← this]; exact hd
        · exact absurd hd (by omega)
    · rw [hic] at h
      simp only [if_true] at h
      obtain ⟨b, hb1, hb2⟩ := flush_clump_to_list_shape h
      constructor
      · rw [hb1]
        intro x hx
        rcases List.mem_append.mp hx with hx | hx
        · exact hout x hx
        · rw [List.mem_singleton.mp hx]; exact hb2
      · intro _
        rw [hb1]
        simp
  | succ k ih =>
    intro i st out elems res h hout
    unfold scanAux at h
    cases hget : in_boxes[i]? with
    | none => rw [hget] at h; exact absurd h (by simp)
    | some cur =>
      rw [hget] at h
      simp only at h
      cases hic : st.in_clump <;> rw [hic] at h
      · obtain ⟨hno, hne⟩ := ih (i+1) ⟨true, i, i⟩ out elems res h hout
        exact ⟨hno, fun _ => hne (Or.inl rfl)⟩
      · cases hcc : can_coalesce_with_prev cm in_boxes i cur <;>
          rw [hcc] at h
        · cases hf : flush_clump_to_list tt in_boxes st.clump_start
              st.clump_end out elems with
          | none => rw [hf] at h; exact absurd h (by simp)
          | some p =>
            obtain ⟨out2, elems2⟩ := p
            rw [hf] at h
            obtain ⟨b, hb1, hb2⟩ := flush_clump_to_list_shape hf
            have hout2 : noUnscanned out2 := by
              have hb1' : out2 = out ++ [b] := hb1
              rw [hb1']
              intro x hx
              rcases List.mem_append.mp hx with hx | hx
              · exact hout x hx
              · rw [List.mem_singleton.mp hx]; exact hb2
            obtain ⟨hno, hne⟩ :=
              ih (i+1) ⟨true, i, i⟩ out2 elems2 res h hout2
            exact ⟨hno, fun _ => hne (Or.inl rfl)⟩
        · obtain ⟨hno, hne⟩ :=
            ih (i+1) ⟨true, st.clump_start, i⟩ out elems res h hout
          exact ⟨hno, fun _ => hne (Or.inl rfl)⟩

/-- A singleton flush of a non-text box copies the box to the output
unchanged and leaves the element ranges untouched. -/
theorem flush_clump_to_list_singleton_nonText (tt : String → String)
    (in_boxes : List RenderBox) (cs : Nat) (out : List RenderBox)
    (elems : List NodeRange) (b : RenderBox)
    (hget : in_boxes[cs]? = some b) (hU : isUnscannedText b = false) :
    flush_clump_to_list tt in_boxes cs cs out elems
      = some (out ++ [b], elems) := by
  unfold flush_clump_to_list
  rw [hget]
  simp [hU]

/-- A pair whose left box is not UnscannedText is never coalescible. -/
theorem coalesce_eq_false_of_left {cm : RenderBox → RenderBox → Bool}
    {a b : RenderBox} (h : isUnscannedText a = false) :
    boxes_can_be_coalesced cm a b = false := by
  unfold boxes_can_be_coalesced
  unfold isUnscannedText at h
  cases hk : a.kind <;> first | rfl | simp_all

/-- From any resumption point i ≥ 1, scanning a flow with no
UnscannedText boxes copies every remaining box unchanged and never
touches the element ranges. -/
theorem scanAux_fixpoint (cm : RenderBox → RenderBox → Bool)
    (tt : String → String) (in_boxes : List RenderBox)
    (hno : noUnscanned in_boxes) (elems : List NodeRange) :
    ∀ (k i : Nat), 1 ≤ i → i + k = in_boxes.length →
      scanAux cm tt in_boxes k i ⟨true, i-1, i-1⟩
        (in_boxes.take (i-1)) elems = some (in_boxes, elems) := by
  intro k
  induction k with
  | zero =>
    intro i h1 hik
    have hi : i - 1 < in_boxes.length := by omega
    have hget : in_boxes[i-1]? = some in_boxes[i-1] :=
      List.getElem?_eq_getElem hi
    have hU : isUnscannedText in_boxes[i-1] = false :=
      hno _ (List.getElem_mem hi)
    unfold scanAux
    rw [if_pos rfl,
      flush_clump_to_list_singleton_nonText tt in_boxes (i-1) _ elems _
        hget hU]
    have htake : in_boxes.take (i-1) ++ [in_boxes[i-1]] = in_boxes := by
      have h2 : in_boxes.take ((i-1)+1) =
          in_boxes.take (i-1) ++ [in_boxes[i-1]] := by
        rw [List.take_succ, hget]
        rfl
      have h3 : (i-1)+1 = in_boxes.length := by omega
      rw [← h2, h3, List.take_length]
    rw [htake]
  | succ k ih =>
    intro i h1 hik
    obtain ⟨m, rfl⟩ : ∃ m, i = m + 1 := ⟨i - 1, by omega⟩
    simp only [Nat.add_sub_cancel]
    have hi : m + 1 < in_boxes.length := by omega
    have him : m < in_boxes.length := by omega
    have hgetc : in_boxes[m+1]? = some in_boxes[m+1] :=
      List.getElem?_eq_getElem hi
    have hgetp : in_boxes[m]? = some in_boxes[m] :=
      List.getElem?_eq_getElem him
    have hUp : isUnscannedText in_boxes[m] = false :=
      hno _ (List.getElem_mem him)
    have hcc : can_coalesce_with_prev cm in_boxes (m+1) in_boxes[m+1]
        = false := by
      unfold can_coalesce_with_prev
      simp only [Nat.add_sub_cancel]
      rw [hgetp]
      exact coalesce_eq_false_of_left hUp
    unfold scanAux
    simp only [hgetc, hcc]
    rw [flush_clump_to_list_singleton_nonText tt in_boxes m _ elems _
      hgetp hUp]
    have htake : in_boxes.take m ++ [in_boxes[m]] =
        in_boxes.take (m+1) := by
      rw [List.take_succ, hgetp]
      rfl
    rw [htake]
    have hih := ih (m+2) (by omega) (by omega)
    simp only [show m+2-1 = m+1 from rfl] at hih
    exact hih

/-- C9: scan_for_runs is a fixpoint.  A flow that has already been
scanned contains no UnscannedText boxes, so running a fresh
TextRunScanner on it again leaves the box sequence unchanged (every
clump is a singleton copied to the output as-is) and modifies no
element span. -/
theorem scan_for_runs_fixpoint (cm : RenderBox → RenderBox → Bool)
    (tt : String → String) (in_boxes : List RenderBox)
    (elems : List NodeRange) (out : List RenderBox)
    (elems2 : List NodeRange)
    (h : scan_for_runs cm tt false in_boxes elems = some (out, elems2)) :
    scan_for_runs cm tt false out elems2 = some (out, elems2) := by
  unfold scan_for_runs at h
  rw [if_neg (by simp)] at h
  by_cases hlen : in_boxes.length = 0
  · rw [if_pos hlen] at h; exact absurd h (by simp)
  · rw [if_neg hlen] at h
    obtain ⟨hnoout, hne⟩ := scanAux_noUnscanned cm tt in_boxes
      in_boxes.length 0 ⟨false, 0, 0⟩ [] elems (out, elems2) h
      (fun b hb => absurd hb (List.not_mem_nil b))
    have hout_ne : out ≠ [] := hne (Or.inr (Or.inr (by omega)))
    unfold scan_for_runs
    rw [if_neg (by simp),
      if_neg (fun hl => hout_ne (List.length_eq_zero.mp hl))]
    obtain ⟨b0, rest, rfl⟩ : ∃ b0 rest, out = b0 :: rest := by
      cases out with
      | nil => exact absurd rfl hout_ne
      | cons a l => exact ⟨a, l, rfl⟩
    show scanAux cm tt (b0 :: rest) (rest.length + 1) 0 ⟨false, 0, 0⟩
      [] elems2 = some (b0 :: rest, elems2)
    unfold scanAux
    simp only [List.getElem?_cons_zero]
    show scanAux cm tt (b0 :: rest) rest.length 1 ⟨true, 0, 0⟩ []
      elems2 = some (b0 :: rest, elems2)
    have := scanAux_fixpoint cm tt (b0 :: rest) hnoout elems2
      rest.length 1 (Nat.le_refl 1) (by simp [Nat.add_comm])
    simpa using this

/-- Witness for C9: a one-box already-scanned flow is unchanged by a
second scan. -/
theorem scan_for_runs_fixpoint_witness :
    scan_for_runs cmTrue ttId false [mkBox 0 (.text ("x")) 0] []
      = some ([mkBox 0 (.text ("x")) 0], []) :=
  scan_for_runs_fixpoint cmTrue ttId [mkBox 0 (.unscannedText ("x")) 0]
    [] [mkBox 0 (.text ("x")) 0] [] (by decide)

end Servo
